import Mathlib

/-!
Verification development for the buyer-lead CSV validation pipeline
(src/lib/schemas.ts and src/lib/csv-utils.ts).

The TypeScript code is shallowly embedded: JS strings become Lean
`String`/`List Char`, JS `undefined` becomes `Option.none`, zod
`safeParse` becomes a total function into an outcome type whose
`thrown` constructor records an exception escaping `safeParse`
(a `ZodError` raised by a bare `.parse` call inside a `.transform`).
-/

deriving instance DecidableEq for Except

namespace BuyerApp

/-! ## JS string primitives -/

/-- ASCII whitespace stripped by `String.prototype.trim` (the Unicode
space characters JS also strips are irrelevant to this code base). -/
def isJsSpace (c : Char) : Bool :=
  c = ' ' || c = '\t' || c = '\n' || c = '\r' || c = Char.ofNat 11 || c = Char.ofNat 12

/-- `trim()` on a character list. -/
def jsTrimL (l : List Char) : List Char :=
  ((l.dropWhile isJsSpace).reverse.dropWhile isJsSpace).reverse

/-- JS `s.trim()`. -/
def jsTrim (s : String) : String :=
  String.mk (jsTrimL s.data)

/-- Worker for the newline split. -/
def jsSplitNlGo : List Char → List Char → List String
  | [], acc => [String.mk acc]
  | c :: rest, acc =>
    if c = '\n' then String.mk acc :: jsSplitNlGo rest []
    else jsSplitNlGo rest (acc ++ [c])

/-- JS split of a string on the newline character: always returns at least one element
(`""` splits to `[""]`). -/
def jsSplitNl (s : String) : List String :=
  jsSplitNlGo s.data []

/-- JS `Array.prototype.join(sep)`. -/
def jsJoin (sep : String) : List String → String
  | [] => ""
  | [x] => x
  | x :: y :: xs => x ++ sep ++ jsJoin sep (y :: xs)

/-- JS `s.includes(c)` for a single character, on a character list. -/
def containsCharL (c : Char) : List Char → Bool
  | [] => false
  | d :: rest => d = c || containsCharL c rest

/-- JS `s.includes(c)` for a single character. -/
def containsChar (s : String) (c : Char) : Bool :=
  containsCharL c s.data

/-- JS `parseInt(s, 10)`: skip leading whitespace, optional sign, then a
maximal digit prefix; `NaN` (here `none`) when no digit is found. -/
def digitsVal (cs : List Char) : Option Nat :=
  let ds := cs.takeWhile Char.isDigit
  if ds.isEmpty then none
  else some (ds.foldl (fun a c => a * 10 + (c.toNat - 48)) 0)

def jsParseInt (s : String) : Option Int :=
  match s.data.dropWhile isJsSpace with
  | '-' :: rest => (digitsVal rest).map (fun n => -(n : Int))
  | '+' :: rest => (digitsVal rest).map (fun n => (n : Int))
  | rest => (digitsVal rest).map (fun n => (n : Int))

/-! ## Email syntax (zod `z.string().email()` regex) -/

/-- The apostrophe character, admitted in email local parts. -/
def apos : Char := Char.ofNat 39

def isLocalChar (c : Char) : Bool :=
  c.isAlphanum || c = '_' || c = apos || c = '+' || c = '-' || c = '.'

def isLocalEnd (c : Char) : Bool :=
  c.isAlphanum || c = '_' || c = '+' || c = '-'

/-- Local part: zero or more local characters followed by one
end-class character (so the part is non-empty and does not end in
a dot or apostrophe). -/
def localOk : List Char → Bool
  | [] => false
  | [c] => isLocalEnd c
  | c :: rest => isLocalChar c && localOk rest

/-- Does the character list contain two consecutive dots? -/
def hasDD : List Char → Bool
  | '.' :: '.' :: _ => true
  | _ :: rest => hasDD rest
  | [] => false

/-- Split at the first occurrence of `c`, if any. -/
def splitFirst (c : Char) : List Char → Option (List Char × List Char)
  | [] => none
  | d :: rest =>
    if d = c then some ([], rest)
    else (splitFirst c rest).map (fun p => (d :: p.1, p.2))

def splitAllAux (c : Char) : List Char → List Char → List (List Char)
  | [], acc => [acc]
  | d :: rest, acc =>
    if d = c then acc :: splitAllAux c rest []
    else splitAllAux c rest (acc ++ [d])

/-- Split on every occurrence of `c`. -/
def splitAll (c : Char) (l : List Char) : List (List Char) :=
  splitAllAux c l []

def labelOk : List Char → Bool
  | [] => false
  | c :: rest => c.isAlphanum && rest.all (fun d => d.isAlphanum || d = '-')

def tldOk (l : List Char) : Bool :=
  decide (2 ≤ l.length) && l.all Char.isAlpha

/-- Domain labels: at least one hyphen-label followed by an alphabetic
top-level domain of length at least two. -/
def domLabels : List (List Char) → Bool
  | [] => false
  | [_] => false
  | [l, t] => labelOk l && tldOk t
  | l :: rest => labelOk l && domLabels rest

/-- zod email regex: anchored, no leading dot, no double dot, a local
part, `@`, then dot-separated domain labels ending in a TLD. -/
def isEmail (s : String) : Bool :=
  let cs := s.data
  match splitFirst '@' cs with
  | none => false
  | some (loc, dom) =>
    (match cs with | [] => false | c0 :: _ => decide (c0 ≠ '.'))
    && !(hasDD cs) && localOk loc && domLabels (splitAll '.' dom)

/-! ## Field codec (schemas.ts transforms and csv-utils.ts decode switches) -/

def timelineUserTokens : List String := ["0-3m", "3-6m", ">6m", "Exploring"]
def timelineCanonTokens : List String :=
  ["ZERO_TO_THREE_MONTHS", "THREE_TO_SIX_MONTHS", "MORE_THAN_SIX_MONTHS", "Exploring"]
def bhkUserTokens : List String := ["1", "2", "3", "4", "Studio"]
def bhkCanonTokens : List String := ["ONE", "TWO", "THREE", "FOUR", "Studio"]
def sourceUserTokens : List String := ["Website", "Referral", "Walk-in", "Call", "Other"]
def sourceCanonTokens : List String := ["Website", "Referral", "Walk_in", "Call", "Other"]
def statusTokens : List String :=
  ["New", "Qualified", "Contacted", "Visited", "Negotiation", "Converted", "Dropped"]
def cityTokens : List String := ["Chandigarh", "Mohali", "Zirakpur", "Panchkula", "Other"]
def propertyTypeTokens : List String := ["Apartment", "Villa", "Plot", "Office", "Retail"]
def purposeTokens : List String := ["Buy", "Rent"]

/-- The switch of `transformTimeline` (default branch returns the input). -/
def encodeTimeline (v : String) : String :=
  if v = "0-3m" then "ZERO_TO_THREE_MONTHS"
  else if v = "3-6m" then "THREE_TO_SIX_MONTHS"
  else if v = ">6m" then "MORE_THAN_SIX_MONTHS"
  else if v = "Exploring" then "Exploring"
  else v

/-- The switch of `transformBHK`. -/
def encodeBhk (v : String) : String :=
  if v = "1" then "ONE"
  else if v = "2" then "TWO"
  else if v = "3" then "THREE"
  else if v = "4" then "FOUR"
  else if v = "Studio" then "Studio"
  else v

/-- The switch of `transformSource`. -/
def encodeSource (v : String) : String :=
  if v = "Walk-in" then "Walk_in" else v

/-- Status values are stored by `CsvRowSchema` exactly as validated:
the user-facing and canonical token sets coincide and the encode step
is the identity. -/
def encodeStatus (v : String) : String := v

/-- The bhk switch of `generateCsvContent` (default is `String(value)`). -/
def decodeBhk (v : String) : String :=
  if v = "ONE" then "1"
  else if v = "TWO" then "2"
  else if v = "THREE" then "3"
  else if v = "FOUR" then "4"
  else if v = "Studio" then "Studio"
  else v

/-- The timeline switch of `generateCsvContent`. -/
def decodeTimeline (v : String) : String :=
  if v = "ZERO_TO_THREE_MONTHS" then "0-3m"
  else if v = "THREE_TO_SIX_MONTHS" then "3-6m"
  else if v = "MORE_THAN_SIX_MONTHS" then ">6m"
  else if v = "Exploring" then "Exploring"
  else v

/-- The source switch of `generateCsvContent`. -/
def decodeSource (v : String) : String :=
  if v = "Walk_in" then "Walk-in" else v

/-- The status switch of `generateCsvContent`: every listed case maps the
token to itself and the default passes the value through. -/
def decodeStatus (v : String) : String :=
  if v = "New" then "New"
  else if v = "Contacted" then "Contacted"
  else if v = "Qualified" then "Qualified"
  else if v = "Visited" then "Visited"
  else if v = "Negotiation" then "Negotiation"
  else if v = "Converted" then "Converted"
  else if v = "Dropped" then "Dropped"
  else v

/-! ## zod issues for CsvRowSchema -/

/-- One entry of `ZodError.errors`: a path and a message. -/
structure Issue where
  path : List String
  message : String
  deriving DecidableEq, Repr

/-- A token wrapped in apostrophes, as in the zod invalid-enum message. -/
def quoteTok (t : String) : String :=
  String.singleton apos ++ t ++ String.singleton apos

/-- The zod `invalid_enum_value` message. -/
def enumMsg (expected : List String) (received : String) : String :=
  ("Invalid enum value. Expected ") ++ jsJoin (" | ") (expected.map quoteTok)
    ++ (", received ") ++ quoteTok received

def fullNameMinMsg : String := "Full name must be at least 2 characters"
def fullNameMaxMsg : String := "Full name must be at most 80 characters"
def emailMsg : String := "Invalid email address"
def phoneMinMsg : String := "Phone must be at least 10 digits"
def phoneMaxMsg : String := "Phone must be at most 15 digits"
def notesMaxMsg : String := "Notes must be at most 1000 characters"
def bhkRuleMsg : String := "BHK is required for Apartment and Villa property types"
def budgetRuleMsg : String := "Minimum budget must be less than or equal to maximum budget"
def requiredMsg : String := "Required"

def bhkRuleIssue : Issue := ⟨["bhk"], bhkRuleMsg⟩
def budgetRuleIssue : Issue := ⟨["budgetMin"], budgetRuleMsg⟩

/-! ## CsvRowSchema field semantics

A raw row as built by `parseCsvContent`: each field is a JS string or
`undefined` (`none`) when the key is absent. -/

structure RawRow where
  fullName : Option String
  email : Option String
  phone : Option String
  city : Option String
  propertyType : Option String
  bhk : Option String
  purpose : Option String
  budgetMin : Option String
  budgetMax : Option String
  timeline : Option String
  source : Option String
  notes : Option String
  tags : Option String
  status : Option String
  deriving DecidableEq, Repr

/-- `z.string().min(2).max(80)` with the fullName messages; a missing
key is an `invalid_type` (`Required`) issue. -/
def fullNameIssues : Option String → List Issue
  | none => [⟨["fullName"], requiredMsg⟩]
  | some s =>
    (if s.length < 2 then [⟨["fullName"], fullNameMinMsg⟩] else [])
      ++ (if 80 < s.length then [⟨["fullName"], fullNameMaxMsg⟩] else [])

/-- The email union of a validated optional email string with a literal
empty string: for a present string, the union yields the dirty issue of
the email branch unless the
string is a valid email or empty. -/
def emailIssues : Option String → List Issue
  | none => []
  | some s =>
    if s = "" then [] else if isEmail s then [] else [⟨["email"], emailMsg⟩]

/-- `z.string().min(10).max(15)` with the phone messages. -/
def phoneIssues : Option String → List Issue
  | none => [⟨["phone"], requiredMsg⟩]
  | some s =>
    (if s.length < 10 then [⟨["phone"], phoneMinMsg⟩] else [])
      ++ (if 15 < s.length then [⟨["phone"], phoneMaxMsg⟩] else [])

/-- A required `z.enum`: missing key gives `Required`, a value outside
the token list gives `invalid_enum_value`. -/
def reqEnumIssues (name : String) (tokens : List String) : Option String → List Issue
  | none => [⟨[name], requiredMsg⟩]
  | some s => if tokens.contains s then [] else [⟨[name], enumMsg tokens s⟩]

/-- An optional `z.enum`: a present value outside the token list gives
`invalid_enum_value`. -/
def optEnumIssues (name : String) (tokens : List String) : Option String → List Issue
  | none => []
  | some s => if tokens.contains s then [] else [⟨[name], enumMsg tokens s⟩]

/-- `z.string().max(1000).optional()` with the notes message. -/
def notesIssues : Option String → List Issue
  | none => []
  | some s => if 1000 < s.length then [⟨["notes"], notesMaxMsg⟩] else []

/-- All structural issues in zod shape-key order (bhk, budgetMin,
budgetMax and tags never produce structural issues). -/
def structIssues (r : RawRow) : List Issue :=
  fullNameIssues r.fullName ++ emailIssues r.email ++ phoneIssues r.phone
    ++ reqEnumIssues ("city") cityTokens r.city
    ++ reqEnumIssues ("propertyType") propertyTypeTokens r.propertyType
    ++ reqEnumIssues ("purpose") purposeTokens r.purpose
    ++ reqEnumIssues ("timeline") timelineUserTokens r.timeline
    ++ optEnumIssues ("source") sourceUserTokens r.source
    ++ notesIssues r.notes
    ++ optEnumIssues ("status") statusTokens r.status

/-- Does a required-enum field park the whole object parse in the zod
INVALID (aborted) state? -/
def reqEnumAborts (tokens : List String) : Option String → Bool
  | none => true
  | some s => !(tokens.contains s)

def optEnumAborts (tokens : List String) : Option String → Bool
  | none => false
  | some s => !(tokens.contains s)

/-- A field-level `INVALID` (missing required string, or enum/union
failure) aborts the object parse, so `.refine` rules do not run.
String length and email failures only mark the parse dirty. -/
def abortsB (r : RawRow) : Bool :=
  r.fullName.isNone || r.phone.isNone
    || reqEnumAborts cityTokens r.city
    || reqEnumAborts propertyTypeTokens r.propertyType
    || reqEnumAborts purposeTokens r.purpose
    || reqEnumAborts timelineUserTokens r.timeline
    || optEnumAborts sourceUserTokens r.source
    || optEnumAborts statusTokens r.status

/-- The bhk transform: a falsy value or a value that trims to the empty
string becomes undefined; otherwise the bare call `transformBHK.parse val`
runs, and throws (escaping `safeParse`) when the non-blank value is
outside the enum. -/
def bhkThrows : Option String → Bool
  | none => false
  | some s =>
    if s = "" then false
    else if jsTrim s = "" then false
    else !(bhkUserTokens.contains s)

/-- The bhk value produced when the transform does not throw. -/
def bhkParsed : Option String → Option String
  | none => none
  | some s =>
    if s = "" then none
    else if jsTrim s = "" then none
    else some (encodeBhk s)

/-- The budgetMin/budgetMax transform: `if (!val) return undefined`,
then `parseInt`, with `NaN` mapped to `undefined`. -/
def budgetParsed : Option String → Option Int
  | none => none
  | some s => if s = "" then none else jsParseInt s

/-- JS truthiness of `number | undefined` (NaN was already mapped to
`undefined`): `0` and `-0` are falsy. -/
def truthyNum : Option Int → Bool
  | none => false
  | some m => m ≠ 0

/-- The first `.refine`: BHK required for Apartment and Villa. -/
def bhkRuleFails (r : RawRow) : Bool :=
  (r.propertyType.getD "" = "Apartment" || r.propertyType.getD "" = "Villa")
    && (bhkParsed r.bhk).isNone

/-- The second `.refine`: `if (data.budgetMin && data.budgetMax)
return budgetMin <= budgetMax` — skipped when either is undefined
*or zero* (truthiness). -/
def budgetRuleFails (r : RawRow) : Bool :=
  match budgetParsed r.budgetMin, budgetParsed r.budgetMax with
  | some m, some M => m ≠ 0 && M ≠ 0 && M < m
  | _, _ => false

/-- Issues appended by the two `.refine` calls, in order. -/
def refineIssues (r : RawRow) : List Issue :=
  (if bhkRuleFails r then [bhkRuleIssue] else [])
    ++ (if budgetRuleFails r then [budgetRuleIssue] else [])

/-- The normalized record on success (`CsvRowInput`). -/
structure CsvRow where
  fullName : String
  email : Option String
  phone : String
  city : String
  propertyType : String
  bhk : Option String
  purpose : String
  budgetMin : Option Int
  budgetMax : Option Int
  timeline : String
  source : Option String
  notes : Option String
  tags : Option String
  status : Option String
  deriving DecidableEq, Repr

/-- The transformed value (only reachable when every required field is
present and valid, hence the inert defaults). -/
def parsedCsvRow (r : RawRow) : CsvRow where
  fullName := r.fullName.getD ""
  email := r.email
  phone := r.phone.getD ""
  city := r.city.getD ""
  propertyType := r.propertyType.getD ""
  bhk := bhkParsed r.bhk
  purpose := r.purpose.getD ""
  budgetMin := budgetParsed r.budgetMin
  budgetMax := budgetParsed r.budgetMax
  timeline := encodeTimeline (r.timeline.getD "")
  source := r.source.map encodeSource
  notes := r.notes
  tags := r.tags
  status := r.status

/-- Outcome of `CsvRowSchema.safeParse`: success, an error-list result,
or an exception escaping `safeParse`. -/
inductive CsvParseOutcome where
  | ok (value : CsvRow)
  | errs (issues : List Issue)
  | thrown (issues : List Issue)
  deriving DecidableEq, Repr

/-- The issues carried by a non-success outcome. -/
def issuesOf : CsvParseOutcome → List Issue
  | .ok _ => []
  | .errs is => is
  | .thrown is => is

/-- `CsvRowSchema.safeParse`. When the bhk transform throws, the
escaping `ZodError` holds the single enum issue of the inner
`transformBHK.parse` call (empty path). Otherwise all structural
issues are collected, the refinements run unless a field aborted,
and an empty issue list means success. -/
def csvSafeParse (r : RawRow) : CsvParseOutcome :=
  if bhkThrows r.bhk then
    .thrown [⟨[], enumMsg bhkUserTokens (r.bhk.getD "")⟩]
  else
    let issues := structIssues r ++ (if abortsB r then [] else refineIssues r)
    if issues.isEmpty then .ok (parsedCsvRow r) else .errs issues

/-! ## parseCsvContent -/

structure RowError where
  row : Nat
  errors : List String
  deriving DecidableEq, Repr

structure CsvImportResult where
  success : Bool
  data : Option (List CsvRow)
  errors : Option (List RowError)
  totalRows : Nat
  validRows : Nat
  invalidRows : Nat
  deriving DecidableEq, Repr

def expectedHeaders : List String :=
  ["fullName", "email", "phone", "city", "propertyType",
   "bhk", "purpose", "budgetMin", "budgetMax", "timeline",
   "source", "notes", "tags", "status"]

/-- The per-issue message string: the path joined by dots, a colon and
a space, then the message. -/
def fmtIssue (i : Issue) : String :=
  jsJoin (".") i.path ++ (": ") ++ i.message

/-- The index whose assignment into the row object wins for a given
column name: the last occurrence in `headers` (each assignment writes
the value at that index, defaulted to the empty string). -/
def lastIdxOf (headers : List String) (name : String) : Option Nat :=
  (((headers.enum).filter (fun p => p.2 = name)).map (fun p => p.1)).getLast?

/-- The row object built from the header and value lists: present for
every header name (missing trailing values default to the empty
string), absent
(`undefined`) for names not in the header. -/
def rawRowOf (headers values : List String) : RawRow :=
  let look := fun name => (lastIdxOf headers name).map (fun j => values.getD j "")
  { fullName := look ("fullName"), email := look ("email"), phone := look ("phone"),
    city := look ("city"), propertyType := look ("propertyType"), bhk := look ("bhk"),
    purpose := look ("purpose"), budgetMin := look ("budgetMin"),
    budgetMax := look ("budgetMax"), timeline := look ("timeline"),
    source := look ("source"), notes := look ("notes"), tags := look ("tags"),
    status := look ("status") }

/-! The tokenizer `parseCsvLine`. -/

/-- Escape a field for export: each double quote is doubled. -/
def escQuotesL : List Char → List Char
  | [] => []
  | c :: rest => if c = '"' then '"' :: '"' :: escQuotesL rest else c :: escQuotesL rest

/-- One step per character of the while loop in `parseCsvLine`: quote
handling with the escaped-quote lookahead, comma split outside quotes,
and a final trimmed flush. -/
def parseCsvLineAux : List Char → List Char → Bool → List String → List String
  | [], cur, _, res => res ++ [String.mk (jsTrimL cur)]
  | '"' :: '"' :: rest2, cur, true, res => parseCsvLineAux rest2 (cur ++ ['"']) true res
  | '"' :: rest, cur, true, res => parseCsvLineAux rest cur false res
  | '"' :: rest, cur, false, res => parseCsvLineAux rest cur true res
  | c :: rest, cur, inQ, res =>
    if c = ',' && !inQ then parseCsvLineAux rest [] inQ (res ++ [String.mk (jsTrimL cur)])
    else parseCsvLineAux rest (cur ++ [c]) inQ res

def parseCsvLine (line : String) : List String :=
  parseCsvLineAux line.data [] false []

/-- The data-row loop of `parseCsvContent` (`i` is the current line
index): blank lines are skipped, a throwing row aborts the whole call
with the exception. -/
def processRows (headers : List String) : List String → Nat →
    Except (List Issue) (List CsvRow × List RowError)
  | [], _ => .ok ([], [])
  | line :: rest, i =>
    let t := jsTrim line
    if t = "" then processRows headers rest (i + 1)
    else
      let values := parseCsvLine t
      match csvSafeParse (rawRowOf headers values) with
      | .thrown e => .error e
      | .ok v =>
        match processRows headers rest (i + 1) with
        | .error e => .error e
        | .ok (ds, es) => .ok (v :: ds, es)
      | .errs issues =>
        match processRows headers rest (i + 1) with
        | .error e => .error e
        | .ok (ds, es) => .ok (ds, ⟨i, issues.map fmtIssue⟩ :: es)

/-- `parseCsvContent`. `Except.error` models the `ZodError` escaping
the call; the `[]` line-list branch mirrors `lines.length === 0`. -/
def parseCsvContent (s : String) : Except (List Issue) CsvImportResult :=
  match jsSplitNl (jsTrim s) with
  | [] => .ok ⟨false, none, some [⟨0, ["CSV file is empty"]⟩], 0, 0, 0⟩
  | l0 :: rest =>
    let headers := parseCsvLine l0
    let headerErrors :=
      (expectedHeaders.filter (fun e => !(headers.contains e))).map
        (fun e => ("Missing required column: ") ++ e)
    if headerErrors.isEmpty then
      match processRows headers rest 1 with
      | .error e => .error e
      | .ok (ds, es) =>
        .ok ⟨es.isEmpty, some ds, if es.isEmpty then none else some es,
             rest.length, ds.length, es.length⟩
    else
      .ok ⟨false, none, some [⟨0, headerErrors⟩], rest.length, 0, 0⟩

/-! Accessors over the same pipeline pieces, for stating properties. -/

def linesOf (s : String) : List String := jsSplitNl (jsTrim s)

def dataLinesOf (s : String) : List String := (linesOf s).tail

def headersOf (s : String) : List String := parseCsvLine ((linesOf s).headD "")

def missingHeaders (s : String) : List String :=
  expectedHeaders.filter (fun e => !((headersOf s).contains e))

def blankCount (s : String) : Nat :=
  ((dataLinesOf s).filter (fun l => jsTrim l = "")).length

/-- totalRows versus validRows + invalidRows of a completed import. -/
def importCounts (s : String) : Option (Nat × Nat) :=
  match parseCsvContent s with
  | .ok r => some (r.totalRows, r.validRows + r.invalidRows)
  | .error _ => none

/-! ## generateCsvContent -/

/-- A record handed to the export serializer: the sixteen columns it
reads, `none` for `null`/`undefined` (other values appear through
`String(value)` as their string forms). -/
structure ExportRow where
  fullName : Option String
  email : Option String
  phone : Option String
  city : Option String
  propertyType : Option String
  bhk : Option String
  purpose : Option String
  budgetMin : Option String
  budgetMax : Option String
  timeline : Option String
  source : Option String
  notes : Option String
  tags : Option String
  status : Option String
  createdAt : Option String
  updatedAt : Option String
  deriving DecidableEq, Repr

def exportHeaders : List String :=
  ["fullName", "email", "phone", "city", "propertyType",
   "bhk", "purpose", "budgetMin", "budgetMax", "timeline",
   "source", "notes", "tags", "status", "createdAt", "updatedAt"]

/-- Quote-wrap a cell iff it contains a comma, a double quote or a
newline, doubling internal quotes. -/
def csvCell (s : String) : String :=
  if containsChar s ',' || containsChar s '"' || containsChar s '\n' then
    String.mk ('"' :: escQuotesL s.data ++ ['"'])
  else s

/-- A plain column: the empty string for null/undefined, else the
quoted string. -/
def cellPlain : Option String → String
  | none => ""
  | some s => csvCell s

/-- A coded column: decode the canonical token first. -/
def cellDecoded (decode : String → String) : Option String → String
  | none => ""
  | some s => csvCell (decode s)

/-- One data line of the export: the sixteen cells joined by commas. -/
def rowLine (r : ExportRow) : String :=
  jsJoin (",")
    [cellPlain r.fullName, cellPlain r.email, cellPlain r.phone, cellPlain r.city,
     cellPlain r.propertyType, cellDecoded decodeBhk r.bhk, cellPlain r.purpose,
     cellPlain r.budgetMin, cellPlain r.budgetMax, cellDecoded decodeTimeline r.timeline,
     cellDecoded decodeSource r.source, cellPlain r.notes, cellPlain r.tags,
     cellDecoded decodeStatus r.status, cellPlain r.createdAt, cellPlain r.updatedAt]

def headerLine : String := jsJoin (",") exportHeaders

/-- `generateCsvContent`: empty input short-circuits to the empty
string, else the
header line and one entry per record joined by newlines. -/
def generateCsvContent (rows : List ExportRow) : String :=
  if rows.isEmpty then ""
  else jsJoin ("\n") (headerLine :: rows.map rowLine)

/-- No newline in any of the sixteen field values of a record. -/
def noNlOpt : Option String → Bool
  | none => true
  | some s => !(containsChar s '\n')

def rowNoNl (r : ExportRow) : Bool :=
  noNlOpt r.fullName && noNlOpt r.email && noNlOpt r.phone && noNlOpt r.city
    && noNlOpt r.propertyType && noNlOpt r.bhk && noNlOpt r.purpose
    && noNlOpt r.budgetMin && noNlOpt r.budgetMax && noNlOpt r.timeline
    && noNlOpt r.source && noNlOpt r.notes && noNlOpt r.tags && noNlOpt r.status
    && noNlOpt r.createdAt && noNlOpt r.updatedAt

/-! ## Helper lemmas -/

theorem string_eta (s : String) : String.mk s.data = s := rfl

theorem data_append (a b : String) : (a ++ b).data = a.data ++ b.data := by
  cases a; cases b; rfl

theorem jsSplitNlGo_pos (l : List Char) : ∀ acc, 0 < (jsSplitNlGo l acc).length := by
  induction l with
  | nil => intro acc; simp [jsSplitNlGo]
  | cons c rest ih =>
    intro acc
    by_cases h : c = '\n' <;> simp [jsSplitNlGo, h, ih]

theorem mem_ite_singleton {c : Prop} [Decidable c] {a i : Issue}
    (h : i ∈ (if c then [a] else [])) : i = a := by
  split at h <;> simp_all

theorem fullNameIssues_path (v : Option String) (i : Issue)
    (h : i ∈ fullNameIssues v) : i.path = ["fullName"] := by
  cases v with
  | none => simp [fullNameIssues] at h; subst h; rfl
  | some s =>
    simp only [fullNameIssues, List.mem_append] at h
    rcases h with h | h <;> rw [mem_ite_singleton h]

theorem emailIssues_path (v : Option String) (i : Issue)
    (h : i ∈ emailIssues v) : i.path = ["email"] := by
  cases v with
  | none => simp [emailIssues] at h
  | some s =>
    simp only [emailIssues] at h
    split at h; · simp at h
    split at h; · simp at h
    simp at h; subst h; rfl

theorem phoneIssues_path (v : Option String) (i : Issue)
    (h : i ∈ phoneIssues v) : i.path = ["phone"] := by
  cases v with
  | none => simp [phoneIssues] at h; subst h; rfl
  | some s =>
    simp only [phoneIssues, List.mem_append] at h
    rcases h with h | h <;> rw [mem_ite_singleton h]

theorem reqEnumIssues_path (name : String) (tokens : List String) (v : Option String)
    (i : Issue) (h : i ∈ reqEnumIssues name tokens v) : i.path = [name] := by
  cases v with
  | none => simp [reqEnumIssues] at h; subst h; rfl
  | some s =>
    simp only [reqEnumIssues] at h
    split at h; · simp at h
    simp at h; subst h; rfl

theorem optEnumIssues_path (name : String) (tokens : List String) (v : Option String)
    (i : Issue) (h : i ∈ optEnumIssues name tokens v) : i.path = [name] := by
  cases v with
  | none => simp [optEnumIssues] at h
  | some s =>
    simp only [optEnumIssues] at h
    split at h; · simp at h
    simp at h; subst h; rfl

theorem notesIssues_path (v : Option String) (i : Issue)
    (h : i ∈ notesIssues v) : i.path = ["notes"] := by
  cases v with
  | none => simp [notesIssues] at h
  | some s =>
    simp only [notesIssues] at h
    split at h
    · simp at h; subst h; rfl
    · simp at h

/-- The path of every structural issue is one of the ten field names that
can produce one: in particular never `bhk` or `budgetMin`. -/
theorem structIssues_path (r : RawRow) (i : Issue) (h : i ∈ structIssues r) :
    i.path ≠ ["bhk"] ∧ i.path ≠ ["budgetMin"] := by
  simp only [structIssues, List.mem_append] at h
  rcases h with ((((((((h | h) | h) | h) | h) | h) | h) | h) | h) | h
  · rw [fullNameIssues_path _ _ h]; exact ⟨by decide, by decide⟩
  · rw [emailIssues_path _ _ h]; exact ⟨by decide, by decide⟩
  · rw [phoneIssues_path _ _ h]; exact ⟨by decide, by decide⟩
  · rw [reqEnumIssues_path _ _ _ _ h]; exact ⟨by decide, by decide⟩
  · rw [reqEnumIssues_path _ _ _ _ h]; exact ⟨by decide, by decide⟩
  · rw [reqEnumIssues_path _ _ _ _ h]; exact ⟨by decide, by decide⟩
  · rw [reqEnumIssues_path _ _ _ _ h]; exact ⟨by decide, by decide⟩
  · rw [optEnumIssues_path _ _ _ _ h]; exact ⟨by decide, by decide⟩
  · rw [notesIssues_path _ _ h]; exact ⟨by decide, by decide⟩
  · rw [optEnumIssues_path _ _ _ _ h]; exact ⟨by decide, by decide⟩

theorem bhkRuleIssue_not_struct (r : RawRow) : bhkRuleIssue ∉ structIssues r := by
  intro h
  exact absurd rfl (structIssues_path r _ h).1

theorem budgetRuleIssue_not_struct (r : RawRow) : budgetRuleIssue ∉ structIssues r := by
  intro h
  exact absurd rfl (structIssues_path r _ h).2

theorem bhkParsed_none_no_throw (v : Option String) (h : bhkParsed v = none) :
    bhkThrows v = false := by
  cases v with
  | none => rfl
  | some s =>
    by_cases h1 : s = ""
    · simp [bhkThrows, h1]
    by_cases h2 : jsTrim s = ""
    · simp [bhkThrows, h1, h2]
    · exfalso; simp [bhkParsed, h1, h2] at h

/-- When the bhk transform does not throw, `safeParse` is the issue
collection followed by the empty/non-empty test. -/
theorem csvSafeParse_eq (r : RawRow) (h : bhkThrows r.bhk = false) :
    csvSafeParse r =
      (if (structIssues r ++ (if abortsB r then [] else refineIssues r)).isEmpty
       then CsvParseOutcome.ok (parsedCsvRow r)
       else CsvParseOutcome.errs
         (structIssues r ++ (if abortsB r then [] else refineIssues r))) := by
  simp [csvSafeParse, h]

theorem csvSafeParse_errs_of_mem (r : RawRow) (i : Issue) (h : bhkThrows r.bhk = false)
    (hm : i ∈ structIssues r ++ (if abortsB r then [] else refineIssues r)) :
    csvSafeParse r =
      CsvParseOutcome.errs (structIssues r ++ (if abortsB r then [] else refineIssues r)) := by
  rw [csvSafeParse_eq r h]
  cases hl : structIssues r ++ (if abortsB r then [] else refineIssues r) with
  | nil => exact absurd (hl ▸ hm) (List.not_mem_nil i)
  | cons a as => simp [hl]

/-- If the budget refinement does not fire, no outcome of `safeParse`
carries the budget-ordering issue. -/
theorem budgetIssue_notin (r : RawRow) (h : budgetRuleFails r = false) :
    budgetRuleIssue ∉ issuesOf (csvSafeParse r) := by
  by_cases ht : bhkThrows r.bhk
  · simp [csvSafeParse, ht, issuesOf, budgetRuleIssue]
  · have hrw := csvSafeParse_eq r (by simpa using ht)
    by_cases hab : abortsB r
    · rw [if_pos hab, List.append_nil] at hrw
      rw [hrw]
      split
      · simp [issuesOf]
      · simp only [issuesOf]
        exact budgetRuleIssue_not_struct r
    · rw [if_neg hab] at hrw
      rw [hrw]
      split
      · simp [issuesOf]
      · simp only [issuesOf]
        intro hmem
        rcases List.mem_append.mp hmem with hs | hi
        · exact budgetRuleIssue_not_struct r hs
        · simp only [refineIssues, h, Bool.false_eq_true, if_false, List.append_nil] at hi
          exact absurd (mem_ite_singleton hi) (by decide)

/-- If the BHK refinement does not fire, no outcome of `safeParse`
carries the BHK-required issue (the exception path carries the inner
enum issue, whose path is empty, not the refinement issue). -/
theorem bhkIssue_notin (r : RawRow) (h : bhkRuleFails r = false) :
    bhkRuleIssue ∉ issuesOf (csvSafeParse r) := by
  by_cases ht : bhkThrows r.bhk
  · simp [csvSafeParse, ht, issuesOf, bhkRuleIssue]
  · have hrw := csvSafeParse_eq r (by simpa using ht)
    by_cases hab : abortsB r
    · rw [if_pos hab, List.append_nil] at hrw
      rw [hrw]
      split
      · simp [issuesOf]
      · simp only [issuesOf]
        exact bhkRuleIssue_not_struct r
    · rw [if_neg hab] at hrw
      rw [hrw]
      split
      · simp [issuesOf]
      · simp only [issuesOf]
        intro hmem
        rcases List.mem_append.mp hmem with hs | hi
        · exact bhkRuleIssue_not_struct r hs
        · simp only [refineIssues, h, Bool.false_eq_true, if_false,
            List.nil_append] at hi
          exact absurd (mem_ite_singleton hi) (by decide)

/-! ## Claim C1 -/

/-- A row whose bhk cell holds the non-empty string `5`, outside the
accepted set. All other cells are valid. -/
def bhkThrowRow : RawRow :=
  ⟨some "John Doe", some "", some "1234567890", some "Chandigarh",
   some "Apartment", some "5", some "Buy", none, none, some "0-3m",
   some "Website", some "", some "", some "New"⟩

/-- C1: refuted on the code — the record validator does *not* always
return a result value: on a row whose bhk cell is a non-empty string
outside the accepted set, the bare `transformBHK.parse` call inside the
bhk transform raises a `ZodError` that escapes `safeParse` (modelled by
the `thrown` outcome), instead of producing an error-list result. -/
theorem C1_safeparse_throws_on_bad_bhk :
    csvSafeParse bhkThrowRow =
      CsvParseOutcome.thrown [⟨[], enumMsg bhkUserTokens ("5")⟩] := by
  decide

/-! ## Claim C3 -/

/-- C3: for each of the four coded enums (timeline, bhk, source,
status) the encode map of the import schema and the decode switch of
the export serializer are mutually inverse bijections between the
user-facing and canonical token domains. -/
theorem C3_codec_bijection :
    (timelineUserTokens.all (fun x => decodeTimeline (encodeTimeline x) == x)
      && timelineCanonTokens.all (fun y => encodeTimeline (decodeTimeline y) == y)
      && timelineUserTokens.all (fun x => timelineCanonTokens.contains (encodeTimeline x))
      && timelineCanonTokens.all (fun y => timelineUserTokens.contains (decodeTimeline y))
      && bhkUserTokens.all (fun x => decodeBhk (encodeBhk x) == x)
      && bhkCanonTokens.all (fun y => encodeBhk (decodeBhk y) == y)
      && bhkUserTokens.all (fun x => bhkCanonTokens.contains (encodeBhk x))
      && bhkCanonTokens.all (fun y => bhkUserTokens.contains (decodeBhk y))
      && sourceUserTokens.all (fun x => decodeSource (encodeSource x) == x)
      && sourceCanonTokens.all (fun y => encodeSource (decodeSource y) == y)
      && sourceUserTokens.all (fun x => sourceCanonTokens.contains (encodeSource x))
      && sourceCanonTokens.all (fun y => sourceUserTokens.contains (decodeSource y))
      && statusTokens.all (fun x => decodeStatus (encodeStatus x) == x)
      && statusTokens.all (fun y => encodeStatus (decodeStatus y) == y)) = true := by
  decide

/-! ## Claim C9 -/

/-- C9: the `CSV file is empty` branch is unreachable — trim-then-split
always yields a non-empty line list — and the empty document is treated
as a header row: row-0 `Missing required column` errors for all 14
expected columns, with totalRows = 0. -/
theorem C9_empty_branch_unreachable :
    (∀ s : String, 0 < (linesOf s).length) ∧
    parseCsvContent "" = Except.ok ⟨false, none,
      some [⟨0, expectedHeaders.map (fun e => ("Missing required column: ") ++ e)⟩],
      0, 0, 0⟩ := by
  constructor
  · intro s; exact jsSplitNlGo_pos _ _
  · decide

/-! ## Claim C2, counterexample -/

/-- A well-headed document with one blank data line and one non-blank
data line. -/
def blankLineDoc : String :=
  "fullName,email,phone,city,propertyType,bhk,purpose,budgetMin,budgetMax,timeline,source,notes,tags,status\n\nx"

/-- C2 counterexample: on a document with a blank data line the import
completes with totalRows = 2 but validRows + invalidRows = 1, so the
conservation law of the claim fails (2 is not 1). -/
theorem C2_blank_line_counterexample :
    importCounts blankLineDoc = some (2, 1) ∧ (2 : Nat) ≠ 1 := by
  exact ⟨by decide, by decide⟩

/-! ## Claim C4, counterexample -/

/-- A row with an invalid city enum value and both budgets present,
nonzero and out of order. -/
def abortBudgetRow : RawRow :=
  ⟨some "John Doe", some "", some "1234567890", some "Paris", some "Plot",
   some "", some "Buy", some "5", some "2", some "0-3m", some "Website",
   some "", some "", some "New"⟩

/-- C4 counterexample: the cross-field rules are *not* evaluated
unconditionally — on a row whose city fails enum membership (a zod
abort), the budget rule condition holds (5 over 2) yet the error list
holds only the city issue and no budget-ordering issue. -/
theorem C4_abort_skips_cross_field :
    budgetRuleFails abortBudgetRow = true ∧
    csvSafeParse abortBudgetRow =
      CsvParseOutcome.errs [⟨["city"], enumMsg cityTokens ("Paris")⟩] ∧
    budgetRuleIssue ∉ issuesOf (csvSafeParse abortBudgetRow) := by
  refine ⟨by decide, by decide, ?_⟩
  decide

/-! ## Claim C5, counterexample -/

/-- C5 counterexample: a value with a trailing space (and a comma) does
not survive the serialize-then-tokenize round trip, because the
tokenizer trims each field: the cell for `a, ` tokenizes back to `a,`. -/
theorem C5_trim_counterexample :
    parseCsvLine (csvCell ("a, ")) = ["a,"] ∧ ("a,") ≠ ("a, ") := by
  exact ⟨by decide, by decide⟩

/-! ## Claim C6, counterexample -/

/-- A fully valid row except that budgetMin parses to 0 and budgetMax
to -1 (0 greater than -1, both present). -/
def zeroBudgetRow : RawRow :=
  ⟨some "John Doe", some "", some "1234567890", some "Chandigarh", some "Plot",
   some "", some "Buy", some "0", some "-1", some "0-3m", some "Website",
   some "", some "", some "New"⟩

/-- C6 counterexample: both budgets parse to present integers with
min (0) greater than max (-1), yet validation *succeeds* — the refine
guard uses JS truthiness, and 0 is falsy, so the ordering rule is
skipped entirely. -/
theorem C6_zero_budget_counterexample :
    budgetParsed zeroBudgetRow.budgetMin = some 0 ∧
    budgetParsed zeroBudgetRow.budgetMax = some (-1) ∧
    csvSafeParse zeroBudgetRow = CsvParseOutcome.ok (parsedCsvRow zeroBudgetRow) := by
  exact ⟨by decide, by decide, by decide⟩

/-! ## Claim C7, counterexample -/

/-- A row with propertyType Apartment, blank bhk and an invalid city. -/
def abortBhkRow : RawRow :=
  ⟨some "John Doe", some "", some "1234567890", some "Paris", some "Apartment",
   some "", some "Buy", none, none, some "0-3m", some "Website",
   some "", some "", some "New"⟩

/-- C7 counterexample: propertyType is Apartment and bhk is absent, yet
the error list contains no issue with path bhk — the invalid city
aborts the object parse before the refinements run, so validation fails
only with the city issue. -/
theorem C7_abort_skips_bhk_rule :
    abortBhkRow.propertyType = some ("Apartment") ∧
    bhkParsed abortBhkRow.bhk = none ∧
    csvSafeParse abortBhkRow =
      CsvParseOutcome.errs [⟨["city"], enumMsg cityTokens ("Paris")⟩] ∧
    bhkRuleIssue ∉ issuesOf (csvSafeParse abortBhkRow) := by
  refine ⟨by decide, by decide, by decide, ?_⟩
  decide

/-! ## Claim C10, counterexample -/

/-- An export record whose notes field holds an embedded newline. -/
def newlineNotesRow : ExportRow :=
  ⟨none, none, none, none, none, none, none, none,
   none, none, none, some "a\nb", none, none, none, none⟩

/-- C10 counterexample: one record whose notes value embeds a newline
produces an output of three physical lines, not the two (header plus
one per record) the claim requires. -/
theorem C10_newline_counterexample :
    (jsSplitNl (generateCsvContent [newlineNotesRow])).length = 3 ∧ (3 : Nat) ≠ 1 + 1 := by
  exact ⟨by decide, by decide⟩

/-! ## Claims C4, C6, C7: amended theorems -/

/-- C6 (amended): when the row reaches the cross-field checks (no
enum/required-level field failure, bhk transform does not throw) and
both budgets parse to present *nonzero* integers with min greater than
max, validation fails and the error list contains the budget-ordering
issue at path budgetMin; whenever the refine condition does not fire
(min at most max, either budget absent, or either equal to zero), no
outcome carries that issue. -/
theorem C6_budget_rule (r : RawRow) :
    (∀ m M : Int, bhkThrows r.bhk = false → abortsB r = false →
      budgetParsed r.budgetMin = some m → budgetParsed r.budgetMax = some M →
      m ≠ 0 → M ≠ 0 → M < m →
      ∃ is, csvSafeParse r = CsvParseOutcome.errs is ∧ budgetRuleIssue ∈ is)
    ∧ (budgetRuleFails r = false → budgetRuleIssue ∉ issuesOf (csvSafeParse r)) := by
  constructor
  · intro m M ht hab hmin hmax hm hM hlt
    have hfail : budgetRuleFails r = true := by
      simp [budgetRuleFails, hmin, hmax, hm, hM, hlt]
    have hmem : budgetRuleIssue ∈
        structIssues r ++ (if abortsB r then [] else refineIssues r) := by
      apply List.mem_append_right
      simp [hab, refineIssues, hfail]
    exact ⟨_, csvSafeParse_errs_of_mem r _ ht hmem, hmem⟩
  · exact budgetIssue_notin r

/-- A row failing only the budget-ordering rule. -/
def budgetFailRow : RawRow :=
  ⟨some "John Doe", some "", some "1234567890", some "Chandigarh", some "Plot",
   some "", some "Buy", some "5", some "2", some "0-3m", some "Website",
   some "", some "", some "New"⟩

/-- C6 witness: the amended theorem at two concrete rows — a row with
budgets 5 over 2 fails with the budgetMin issue; the row with budget 0
over -1 never carries it. -/
theorem C6_budget_rule_witness :
    (∃ is, csvSafeParse budgetFailRow = CsvParseOutcome.errs is ∧ budgetRuleIssue ∈ is)
    ∧ budgetRuleIssue ∉ issuesOf (csvSafeParse zeroBudgetRow) :=
  ⟨(C6_budget_rule budgetFailRow).1 5 2 (by decide) (by decide) (by decide)
    (by decide) (by decide) (by decide) (by decide),
   (C6_budget_rule zeroBudgetRow).2 (by decide)⟩

/-- C7 (amended): when no field aborts the object parse, propertyType
is Apartment or Villa and the bhk transform yields undefined,
validation fails and the error list contains the BHK-required issue at
path bhk; when propertyType is neither Apartment nor Villa, no outcome
ever carries that issue, whether or not bhk is present. -/
theorem C7_bhk_rule (r : RawRow) :
    (abortsB r = false →
      (r.propertyType.getD "" = "Apartment" ∨ r.propertyType.getD "" = "Villa") →
      bhkParsed r.bhk = none →
      ∃ is, csvSafeParse r = CsvParseOutcome.errs is ∧ bhkRuleIssue ∈ is)
    ∧ (r.propertyType.getD "" ≠ "Apartment" → r.propertyType.getD "" ≠ "Villa" →
      bhkRuleIssue ∉ issuesOf (csvSafeParse r)) := by
  constructor
  · intro hab hpt hbhk
    have ht : bhkThrows r.bhk = false := bhkParsed_none_no_throw _ hbhk
    have hfail : bhkRuleFails r = true := by
      rcases hpt with h | h <;> simp [bhkRuleFails, h, hbhk]
    have hmem : bhkRuleIssue ∈
        structIssues r ++ (if abortsB r then [] else refineIssues r) := by
      apply List.mem_append_right
      simp [hab, refineIssues, hfail]
    exact ⟨_, csvSafeParse_errs_of_mem r _ ht hmem, hmem⟩
  · intro hA hV
    apply bhkIssue_notin
    simp [bhkRuleFails, hA, hV]

/-- A Villa row with blank bhk and every other field valid. -/
def bhkFailRow : RawRow :=
  ⟨some "John Doe", some "", some "1234567890", some "Chandigarh", some "Villa",
   some "", some "Buy", none, none, some "0-3m", some "Website",
   some "", some "", some "New"⟩

/-- A Plot row with blank bhk. -/
def bhkPassRow : RawRow :=
  ⟨some "Jane Smith", some "", some "9876543210", some "Mohali", some "Plot",
   some "", some "Buy", none, none, some "3-6m", some "Website",
   some "", some "", some "New"⟩

/-- C7 witness: the amended theorem at two concrete rows — a Villa row
with blank bhk fails with the bhk issue; a Plot row never carries it. -/
theorem C7_bhk_rule_witness :
    (∃ is, csvSafeParse bhkFailRow = CsvParseOutcome.errs is ∧ bhkRuleIssue ∈ is)
    ∧ bhkRuleIssue ∉ issuesOf (csvSafeParse bhkPassRow) :=
  ⟨(C7_bhk_rule bhkFailRow).1 (by decide) (Or.inr (by decide)) (by decide),
   (C7_bhk_rule bhkPassRow).2 (by decide) (by decide)⟩

/-- C4 (amended): all structural field errors are collected, and the
cross-field rules run whenever no field fails at enum/required level
and the bhk transform does not throw — so on such a row with a
too-short fullName (a structural error) and a firing budget rule, the
error list contains both the structural issue and the cross-field
issue. -/
theorem C4_error_collection (r : RawRow) (s : String)
    (hfn : r.fullName = some s) (hlen : s.length < 2)
    (ht : bhkThrows r.bhk = false) (hab : abortsB r = false)
    (hbud : budgetRuleFails r = true) :
    Issue.mk ["fullName"] fullNameMinMsg ∈ issuesOf (csvSafeParse r) ∧
    budgetRuleIssue ∈ issuesOf (csvSafeParse r) := by
  have h80 : ¬(80 < s.length) := by omega
  have hmem1 : Issue.mk ["fullName"] fullNameMinMsg ∈
      structIssues r ++ (if abortsB r then [] else refineIssues r) := by
    apply List.mem_append_left
    simp [structIssues, fullNameIssues, hfn, hlen, h80]
  have hmem2 : budgetRuleIssue ∈
      structIssues r ++ (if abortsB r then [] else refineIssues r) := by
    apply List.mem_append_right
    simp [hab, refineIssues, hbud]
  have heq := csvSafeParse_errs_of_mem r _ ht hmem1
  rw [heq]
  exact ⟨hmem1, hmem2⟩

/-- A row with a one-character fullName and out-of-order budgets,
every enum-level field valid. -/
def shortNameRow : RawRow :=
  ⟨some "J", some "", some "1234567890", some "Chandigarh", some "Plot",
   some "", some "Buy", some "5", some "2", some "0-3m", some "Website",
   some "", some "", some "New"⟩

/-- C4 witness: the amended theorem at a concrete row carrying both a
structural fullName issue and the budget cross-field issue. -/
theorem C4_error_collection_witness :
    Issue.mk ["fullName"] fullNameMinMsg ∈ issuesOf (csvSafeParse shortNameRow) ∧
    budgetRuleIssue ∈ issuesOf (csvSafeParse shortNameRow) :=
  C4_error_collection shortNameRow ("J") (by decide) (by decide) (by decide)
    (by decide) (by decide)

/-! ## Claim C5: amended round trip -/

/-- Step lemma: an escaped quote inside quotes appends one literal
quote and advances two characters. -/
theorem parseAux_escaped (rest : List Char) (cur : List Char) (res : List String) :
    parseCsvLineAux ('"' :: '"' :: rest) cur true res
      = parseCsvLineAux rest (cur ++ ['"']) true res := rfl

/-- Step lemma: inside quotes any non-quote character is appended to
the accumulator. -/
theorem parseAux_in_other (c : Char) (hc : c ≠ '"') (rest : List Char)
    (cur : List Char) (res : List String) :
    parseCsvLineAux (c :: rest) cur true res
      = parseCsvLineAux rest (cur ++ [c]) true res := by
  rw [parseCsvLineAux.eq_def]
  split <;> simp_all

/-- Scanning the quote-escaped form of `w` in the in-quotes state, with
the closing quote appended, accumulates exactly `w` and flushes one
trimmed field. -/
theorem parseAux_esc (w : List Char) : ∀ (cur : List Char) (res : List String),
    parseCsvLineAux (escQuotesL w ++ ['"']) cur true res
      = res ++ [String.mk (jsTrimL (cur ++ w))] := by
  induction w with
  | nil => intro cur res; simp [escQuotesL, parseCsvLineAux]
  | cons c w' ih =>
    intro cur res
    by_cases hc : c = '"'
    · subst hc
      have he : escQuotesL ('"' :: w') = '"' :: '"' :: escQuotesL w' := by
        simp [escQuotesL]
      rw [he, List.cons_append, List.cons_append, parseAux_escaped, ih]
      simp [List.append_assoc]
    · have he : escQuotesL (c :: w') = c :: escQuotesL w' := by
        simp [escQuotesL, hc]
      rw [he, List.cons_append, parseAux_in_other c hc, ih]
      simp [List.append_assoc]

/-- Opening a quoted cell from the out-of-quotes state enters the
in-quotes state. -/
theorem parseAux_open (l : List Char) (cur : List Char) (res : List String) :
    parseCsvLineAux ('"' :: l ++ ['"']) cur false res
      = parseCsvLineAux (l ++ ['"']) cur true res := by
  cases l with
  | nil => simp [parseCsvLineAux]
  | cons c l' => by_cases hc : c = '"' <;> simp [parseCsvLineAux, hc]

/-- C5 (amended): the serialize-then-tokenize round trip returns the
original value for every field value that contains a comma, a double
quote or a newline *and has no leading or trailing whitespace* (the
tokenizer trims each field, so edge whitespace is lost). -/
theorem C5_roundtrip (v : String)
    (hspec : (containsChar v ',' || containsChar v '"' || containsChar v '\n') = true)
    (htrim : jsTrim v = v) :
    parseCsvLine (csvCell v) = [v] := by
  have hq : csvCell v = String.mk ('"' :: escQuotesL v.data ++ ['"']) := by
    simp [csvCell, hspec]
  rw [parseCsvLine, hq]
  show parseCsvLineAux ('"' :: escQuotesL v.data ++ ['"']) [] false [] = [v]
  rw [parseAux_open, parseAux_esc]
  simpa [jsTrim] using htrim

/-- C5 witness: the amended round trip at the concrete value `a,b`. -/
theorem C5_roundtrip_witness : parseCsvLine (csvCell ("a,b")) = [("a,b")] :=
  C5_roundtrip ("a,b") (by decide) (by decide)

/-! ## Claim C2: amended conservation -/

/-- Each non-blank data line contributes to exactly one of the two
output lists, and blank lines to neither, so the two lengths plus the
blank-line count give the line count. -/
theorem processRows_counts (hs : List String) (ls : List String) :
    ∀ (i : Nat) (ds : List CsvRow) (es : List RowError),
      processRows hs ls i = .ok (ds, es) →
      ds.length + es.length + (ls.filter (fun l => jsTrim l = "")).length = ls.length := by
  induction ls with
  | nil =>
    intro i ds es h
    simp only [processRows, Except.ok.injEq, Prod.mk.injEq] at h
    obtain ⟨h1, h2⟩ := h
    simp [← h1, ← h2]
  | cons line rest ih =>
    intro i ds es h
    by_cases hb : jsTrim line = ""
    · rw [show processRows hs (line :: rest) i = processRows hs rest (i + 1) from by
        simp [processRows, hb]] at h
      have hrec := ih (i + 1) ds es h
      have hfl : (line :: rest).filter (fun l => jsTrim l = "")
          = line :: rest.filter (fun l => jsTrim l = "") := by
        simp [List.filter_cons, hb]
      rw [hfl]
      simp only [List.length_cons]
      omega
    · rcases hc : csvSafeParse (rawRowOf hs (parseCsvLine (jsTrim line))) with v | is | e
      · rw [show processRows hs (line :: rest) i
            = (match processRows hs rest (i + 1) with
               | .error e => .error e
               | .ok (ds', es') => .ok (v :: ds', es')) from by
          simp [processRows, hb, hc]] at h
        rcases hr : processRows hs rest (i + 1) with e' | ⟨ds', es'⟩ <;> rw [hr] at h
        · cases h
        · simp only [Except.ok.injEq, Prod.mk.injEq] at h
          obtain ⟨h1, h2⟩ := h
          have hrec := ih (i + 1) ds' es' hr
          have hfl : (line :: rest).filter (fun l => jsTrim l = "")
              = rest.filter (fun l => jsTrim l = "") := by
            simp [List.filter_cons, hb]
          rw [hfl, ← h1, ← h2]
          simp only [List.length_cons]
          omega
      · rw [show processRows hs (line :: rest) i
            = (match processRows hs rest (i + 1) with
               | .error e => .error e
               | .ok (ds', es') => .ok (ds', ⟨i, is.map fmtIssue⟩ :: es')) from by
          simp [processRows, hb, hc]] at h
        rcases hr : processRows hs rest (i + 1) with e' | ⟨ds', es'⟩ <;> rw [hr] at h
        · cases h
        · simp only [Except.ok.injEq, Prod.mk.injEq] at h
          obtain ⟨h1, h2⟩ := h
          have hrec := ih (i + 1) ds' es' hr
          have hfl : (line :: rest).filter (fun l => jsTrim l = "")
              = rest.filter (fun l => jsTrim l = "") := by
            simp [List.filter_cons, hb]
          rw [hfl, ← h1, ← h2]
          simp only [List.length_cons]
          omega
      · rw [show processRows hs (line :: rest) i = .error e from by
          simp [processRows, hb, hc]] at h
        cases h

/-- C2 (amended): for every document that completes the import (no
exception) and passes the header check, the records list length equals
validRows, the row-error list length equals invalidRows, and totalRows
equals validRows + invalidRows *plus the number of blank data lines*
(so the claimed conservation holds exactly when no data line is
blank). -/
theorem C2_conservation (s : String) (res : CsvImportResult)
    (hok : parseCsvContent s = Except.ok res) (hhdr : missingHeaders s = []) :
    ∃ ds, res.data = some ds ∧ ds.length = res.validRows ∧
      (res.errors.getD []).length = res.invalidRows ∧
      res.totalRows = res.validRows + res.invalidRows + blankCount s := by
  have hp : 0 < (linesOf s).length := jsSplitNlGo_pos _ _
  rcases hl : jsSplitNl (jsTrim s) with _ | ⟨l0, rest⟩
  · rw [show linesOf s = [] from hl] at hp; simp at hp
  · have hhd : headersOf s = parseCsvLine l0 := by
      rw [headersOf, show linesOf s = l0 :: rest from hl]
      rfl
    have hfil : (expectedHeaders.filter (fun e => !((parseCsvLine l0).contains e))) = [] := by
      rw [missingHeaders, hhd] at hhdr; exact hhdr
    have hdl : dataLinesOf s = rest := by
      rw [dataLinesOf, show linesOf s = l0 :: rest from hl]
      rfl
    simp only [parseCsvContent, hl] at hok
    rw [hfil] at hok
    simp only [List.map_nil, List.isEmpty_nil, if_true] at hok
    rcases hr : processRows (parseCsvLine l0) rest 1 with e | ⟨ds, es⟩ <;> rw [hr] at hok
    · cases hok
    · simp only [Except.ok.injEq] at hok
      subst hok
      refine ⟨ds, rfl, rfl, ?_, ?_⟩
      · cases es <;> simp
      · have hc := processRows_counts (parseCsvLine l0) rest 1 ds es hr
        have hb : blankCount s = ((rest.filter (fun l => jsTrim l = ""))).length := by
          rw [blankCount, hdl]
        simp only [hb]
        omega

/-- A well-headed document with a single valid data row and no blank
lines. -/
def validRowDoc : String :=
  "fullName,email,phone,city,propertyType,bhk,purpose,budgetMin,budgetMax,timeline,source,notes,tags,status\nJohn Doe,,1234567890,Chandigarh,Plot,,Buy,,,0-3m,Website,,,New"

/-- The import result of `validRowDoc`. -/
def validRowDocRes : CsvImportResult :=
  ⟨true,
   some [⟨"John Doe", some "", "1234567890", "Chandigarh", "Plot", none, "Buy",
          none, none, "ZERO_TO_THREE_MONTHS", some "Website", some "", some "",
          some "New"⟩],
   none, 1, 1, 0⟩

/-- C2 witness: the amended conservation at a concrete document. -/
theorem C2_conservation_witness :
    ∃ ds, validRowDocRes.data = some ds ∧ ds.length = validRowDocRes.validRows ∧
      (validRowDocRes.errors.getD []).length = validRowDocRes.invalidRows ∧
      validRowDocRes.totalRows
        = validRowDocRes.validRows + validRowDocRes.invalidRows + blankCount validRowDoc :=
  C2_conservation validRowDoc validRowDocRes (by decide) (by decide)

/-! ## Claim C8 -/

/-- C8: a document whose header lacks the city column aborts the import
before any data row: success false, no records, exactly one row-0 error
entry whose messages include the missing-city message, totalRows equal
to the line count minus one, validRows and invalidRows zero. -/
theorem C8_header_abort (s : String)
    (h : ((headersOf s).contains ("city")) = false) :
    parseCsvContent s = Except.ok ⟨false, none,
      some [⟨0, (missingHeaders s).map (fun e => ("Missing required column: ") ++ e)⟩],
      (dataLinesOf s).length, 0, 0⟩ ∧
    ("Missing required column: city") ∈
      (missingHeaders s).map (fun e => ("Missing required column: ") ++ e) := by
  have hp : 0 < (linesOf s).length := jsSplitNlGo_pos _ _
  have hmem : "city" ∈ missingHeaders s := by
    rw [missingHeaders]
    exact List.mem_filter.mpr ⟨by decide, by simp only [h, Bool.not_false]⟩
  rcases hl : jsSplitNl (jsTrim s) with _ | ⟨l0, rest⟩
  · rw [show linesOf s = [] from hl] at hp; simp at hp
  · have hhd : headersOf s = parseCsvLine l0 := by
      rw [headersOf, show linesOf s = l0 :: rest from hl]
      rfl
    have hfe : (expectedHeaders.filter (fun e => !((parseCsvLine l0).contains e)))
        = missingHeaders s := by
      rw [missingHeaders, hhd]
    have hdl : dataLinesOf s = rest := by
      rw [dataLinesOf, show linesOf s = l0 :: rest from hl]
      rfl
    have hne : ((missingHeaders s).map
        (fun e => ("Missing required column: ") ++ e)).isEmpty = false := by
      cases hmm : missingHeaders s with
      | nil => rw [hmm] at hmem; exact absurd hmem (List.not_mem_nil _)
      | cons a as => simp [hmm]
    constructor
    · simp only [parseCsvContent, hl]
      rw [hfe, hne, hdl]
      simp
    · exact List.mem_map.mpr ⟨"city", hmem, rfl⟩

/-- A document whose two-column header lacks city. -/
def noCityDoc : String := "a,b\nx\ny"

/-- C8 witness: the header-abort shape at a concrete document. -/
theorem C8_header_abort_witness :
    parseCsvContent noCityDoc = Except.ok ⟨false, none,
      some [⟨0, (missingHeaders noCityDoc).map (fun e => ("Missing required column: ") ++ e)⟩],
      (dataLinesOf noCityDoc).length, 0, 0⟩ ∧
    ("Missing required column: city") ∈
      (missingHeaders noCityDoc).map (fun e => ("Missing required column: ") ++ e) :=
  C8_header_abort noCityDoc (by decide)

/-! ## Claim C10: amended export shape -/

theorem containsCharL_append (c : Char) (a b : List Char) :
    containsCharL c (a ++ b) = (containsCharL c a || containsCharL c b) := by
  induction a with
  | nil => simp [containsCharL]
  | cons d a' ih => simp [containsCharL, ih, Bool.or_assoc]

/-- Splitting a newline-free chunk yields a single line. -/
theorem go_no_nl (p : List Char) : ∀ acc, containsCharL '\n' p = false →
    jsSplitNlGo p acc = [String.mk (acc ++ p)] := by
  induction p with
  | nil => intro acc _; simp [jsSplitNlGo]
  | cons c p' ih =>
    intro acc h
    simp only [containsCharL, Bool.or_eq_false_iff, decide_eq_false_iff_not] at h
    obtain ⟨h1, h2⟩ := h
    simp [jsSplitNlGo, h1, ih _ h2, List.append_assoc]

/-- Splitting a newline-free chunk followed by a newline flushes one
line and continues. -/
theorem go_split (p : List Char) : ∀ (acc r : List Char), containsCharL '\n' p = false →
    jsSplitNlGo (p ++ '\n' :: r) acc = String.mk (acc ++ p) :: jsSplitNlGo r [] := by
  induction p with
  | nil => intro acc r _; simp [jsSplitNlGo]
  | cons c p' ih =>
    intro acc r h
    simp only [containsCharL, Bool.or_eq_false_iff, decide_eq_false_iff_not] at h
    obtain ⟨h1, h2⟩ := h
    simp [jsSplitNlGo, h1, ih _ _ h2, List.append_assoc]

/-- Splitting the newline-join of newline-free parts recovers the
parts. -/
theorem splitNl_join : ∀ (parts : List String), parts ≠ [] →
    (∀ x ∈ parts, containsCharL '\n' x.data = false) →
    jsSplitNl (jsJoin ("\n") parts) = parts
  | [], h, _ => absurd rfl h
  | [x], _, hx => by
    show jsSplitNlGo x.data [] = [x]
    rw [go_no_nl x.data [] (hx x (by simp))]
    simp
  | x :: y :: ys, _, hx => by
    have hdata : (x ++ "\n" ++ jsJoin ("\n") (y :: ys)).data
        = x.data ++ '\n' :: (jsJoin ("\n") (y :: ys)).data := by
      rw [data_append, data_append]
      simp
    show jsSplitNlGo (x ++ "\n" ++ jsJoin ("\n") (y :: ys)).data [] = x :: y :: ys
    rw [hdata, go_split x.data [] _ (hx x (by simp))]
    rw [show String.mk ([] ++ x.data) = x from by simp]
    rw [show jsSplitNlGo (jsJoin ("\n") (y :: ys)).data [] = jsSplitNl (jsJoin ("\n") (y :: ys)) from rfl]
    rw [splitNl_join (y :: ys) (by simp) (fun z hz => hx z (by simp [hz]))]

theorem escQuotesL_no_nl (l : List Char) (h : containsCharL '\n' l = false) :
    containsCharL '\n' (escQuotesL l) = false := by
  induction l with
  | nil => simp [escQuotesL, containsCharL]
  | cons c rest ih =>
    simp only [containsCharL, Bool.or_eq_false_iff, decide_eq_false_iff_not] at h
    obtain ⟨h1, h2⟩ := h
    by_cases hc : c = '"'
    · simp [escQuotesL, hc, containsCharL, ih h2]
    · simp [escQuotesL, hc, containsCharL, ih h2, h1]

theorem csvCell_no_nl (s : String) (h : containsChar s '\n' = false) :
    containsCharL '\n' (csvCell s).data = false := by
  rw [csvCell]
  split
  · show containsCharL '\n' ('"' :: escQuotesL s.data ++ ['"']) = false
    simp [containsCharL, containsCharL_append, escQuotesL_no_nl s.data h]
  · exact h

theorem decodeBhk_no_nl (s : String) (h : containsChar s '\n' = false) :
    containsChar (decodeBhk s) '\n' = false := by
  rw [decodeBhk]; split_ifs <;> first | decide | exact h

theorem decodeTimeline_no_nl (s : String) (h : containsChar s '\n' = false) :
    containsChar (decodeTimeline s) '\n' = false := by
  rw [decodeTimeline]; split_ifs <;> first | decide | exact h

theorem decodeSource_no_nl (s : String) (h : containsChar s '\n' = false) :
    containsChar (decodeSource s) '\n' = false := by
  rw [decodeSource]; split_ifs <;> first | decide | exact h

theorem decodeStatus_no_nl (s : String) (h : containsChar s '\n' = false) :
    containsChar (decodeStatus s) '\n' = false := by
  rw [decodeStatus]; split_ifs <;> first | decide | exact h

theorem cellPlain_no_nl (v : Option String) (h : noNlOpt v = true) :
    containsCharL '\n' (cellPlain v).data = false := by
  cases v with
  | none => decide
  | some s =>
    simp only [noNlOpt, Bool.not_eq_eq_eq_not, Bool.not_true] at h
    exact csvCell_no_nl s h

theorem cellDecoded_no_nl (f : String → String)
    (hf : ∀ t, containsChar t '\n' = false → containsChar (f t) '\n' = false)
    (v : Option String) (h : noNlOpt v = true) :
    containsCharL '\n' (cellDecoded f v).data = false := by
  cases v with
  | none => rfl
  | some s =>
    simp only [noNlOpt, Bool.not_eq_eq_eq_not, Bool.not_true] at h
    exact csvCell_no_nl _ (hf s h)

theorem jsJoin_no_nl (sep : String) (hsep : containsCharL '\n' sep.data = false) :
    ∀ (xs : List String), (∀ x ∈ xs, containsCharL '\n' x.data = false) →
    containsCharL '\n' (jsJoin sep xs).data = false
  | [], _ => rfl
  | [x], h => h x (by simp)
  | x :: y :: ys, h => by
    show containsCharL '\n' (x ++ sep ++ jsJoin sep (y :: ys)).data = false
    rw [data_append, data_append, containsCharL_append, containsCharL_append]
    simp [h x (by simp), hsep,
      jsJoin_no_nl sep hsep (y :: ys) (fun z hz => h z (by simp [hz]))]

theorem rowLine_no_nl (r : ExportRow) (h : rowNoNl r = true) :
    containsCharL '\n' (rowLine r).data = false := by
  simp only [rowNoNl, Bool.and_eq_true] at h
  obtain ⟨⟨⟨⟨⟨⟨⟨⟨⟨⟨⟨⟨⟨⟨⟨h1, h2⟩, h3⟩, h4⟩, h5⟩, h6⟩, h7⟩, h8⟩, h9⟩,
    h10⟩, h11⟩, h12⟩, h13⟩, h14⟩, h15⟩, h16⟩ := h
  apply jsJoin_no_nl _ (by decide)
  intro x hx
  simp only [List.mem_cons, List.not_mem_nil, or_false] at hx
  rcases hx with rfl | rfl | rfl | rfl | rfl | rfl | rfl | rfl | rfl | rfl | rfl
    | rfl | rfl | rfl | rfl | rfl
  · exact cellPlain_no_nl _ h1
  · exact cellPlain_no_nl _ h2
  · exact cellPlain_no_nl _ h3
  · exact cellPlain_no_nl _ h4
  · exact cellPlain_no_nl _ h5
  · exact cellDecoded_no_nl _ decodeBhk_no_nl _ h6
  · exact cellPlain_no_nl _ h7
  · exact cellPlain_no_nl _ h8
  · exact cellPlain_no_nl _ h9
  · exact cellDecoded_no_nl _ decodeTimeline_no_nl _ h10
  · exact cellDecoded_no_nl _ decodeSource_no_nl _ h11
  · exact cellPlain_no_nl _ h12
  · exact cellPlain_no_nl _ h13
  · exact cellDecoded_no_nl _ decodeStatus_no_nl _ h14
  · exact cellPlain_no_nl _ h15
  · exact cellPlain_no_nl _ h16

/-- C10 (amended): the export of an empty record list is the empty
string with no header; for a non-empty record list whose field values
contain no newline, the output splits into exactly the fixed 16-column
header line followed by one line per record. -/
theorem C10_export_shape :
    generateCsvContent [] = "" ∧
    ∀ rows : List ExportRow, rows ≠ [] → (∀ r ∈ rows, rowNoNl r = true) →
      jsSplitNl (generateCsvContent rows) = headerLine :: rows.map rowLine ∧
      (jsSplitNl (generateCsvContent rows)).length = 1 + rows.length := by
  refine ⟨rfl, ?_⟩
  intro rows hne h
  cases rows with
  | nil => exact absurd rfl hne
  | cons r0 rs =>
    have hgen : generateCsvContent (r0 :: rs)
        = jsJoin ("\n") (headerLine :: (r0 :: rs).map rowLine) := by
      simp [generateCsvContent]
    rw [hgen]
    have hsp : jsSplitNl (jsJoin ("\n") (headerLine :: (r0 :: rs).map rowLine))
        = headerLine :: (r0 :: rs).map rowLine := by
      apply splitNl_join _ (by simp)
      intro x hx
      rcases List.mem_cons.mp hx with rfl | hx2
      · decide
      · obtain ⟨r, hr, rfl⟩ := List.mem_map.mp hx2
        exact rowLine_no_nl r (h r hr)
    rw [hsp]
    exact ⟨rfl, by simp [Nat.add_comm]⟩

/-- An export record with plain single-line values in every field. -/
def plainExportRow : ExportRow :=
  ⟨some "John Doe", some "john@example.com", some "1234567890", some "Chandigarh",
   some "Apartment", some "TWO", some "Buy", some "5000000", some "8000000",
   some "ZERO_TO_THREE_MONTHS", some "Website", some "note", some "t1", some "New",
   some "2024-01-01", some "2024-01-02"⟩

/-- C10 witness: the amended export shape at a one-record list. -/
theorem C10_export_shape_witness :
    jsSplitNl (generateCsvContent [plainExportRow])
      = headerLine :: [plainExportRow].map rowLine ∧
    (jsSplitNl (generateCsvContent [plainExportRow])).length
      = 1 + [plainExportRow].length :=
  C10_export_shape.2 [plainExportRow] (by decide) (by decide)

end BuyerApp
